import Mathlib

/-!
Shallow embedding of the raytrace-rs renderer (src/camera.rs, src/collidable.rs,
src/material.rs, src/ray.rs, src/solver.rs) over exact reals.  Machine `f64`
values are modelled by `ℝ`; the mutable random generator threaded through the
Rust code by `&mut R` is modelled by explicit state passing of an abstract
stream of unit draws.
-/

namespace Raytrace

/-- glam `DVec3`, the 3-vector of `f64` used throughout the renderer. -/
structure Vec3 where
  x : ℝ
  y : ℝ
  z : ℝ

namespace Vec3

instance : Add Vec3 := ⟨fun a b => ⟨a.x + b.x, a.y + b.y, a.z + b.z⟩⟩

instance : Sub Vec3 := ⟨fun a b => ⟨a.x - b.x, a.y - b.y, a.z - b.z⟩⟩

instance : Neg Vec3 := ⟨fun a => ⟨-a.x, -a.y, -a.z⟩⟩

/-- glam `DVec3` componentwise multiplication (`Mul` impl). -/
instance : Mul Vec3 := ⟨fun a b => ⟨a.x * b.x, a.y * b.y, a.z * b.z⟩⟩

instance : Zero Vec3 := ⟨⟨0, 0, 0⟩⟩

/-- Scalar multiplication, glam `DVec3 * f64`. -/
def smul (v : Vec3) (k : ℝ) : Vec3 := ⟨v.x * k, v.y * k, v.z * k⟩

/-- glam `DVec3::dot`. -/
def dot (a b : Vec3) : ℝ := a.x * b.x + a.y * b.y + a.z * b.z

/-- glam `DVec3::cross`. -/
def cross (a b : Vec3) : Vec3 :=
  ⟨a.y * b.z - a.z * b.y, a.z * b.x - a.x * b.z, a.x * b.y - a.y * b.x⟩

/-- glam `DVec3::length_squared`. -/
def lengthSquared (v : Vec3) : ℝ := v.x * v.x + v.y * v.y + v.z * v.z

/-- glam `DVec3::length`. -/
noncomputable def length (v : Vec3) : ℝ := Real.sqrt v.lengthSquared

/-- glam `DVec3::normalize`: the vector scaled by the reciprocal of its length. -/
noncomputable def normalize (v : Vec3) : Vec3 := v.smul (1 / v.length)

/-- glam `DVec3::lerp`: `self + (rhs - self) * s`. -/
def lerp (a b : Vec3) (s : ℝ) : Vec3 := a + (b - a).smul s

/-- glam `DVec3::angle_between`:
`acos(self.dot(rhs) / sqrt(self.length_squared() * rhs.length_squared()))`. -/
noncomputable def angleBetween (a b : Vec3) : ℝ :=
  Real.arccos (a.dot b / Real.sqrt (a.lengthSquared * b.lengthSquared))

end Vec3

/-- glam `DQuat`, used for camera orientation and the transmission rotation. -/
structure Quat where
  w : ℝ
  qx : ℝ
  qy : ℝ
  qz : ℝ

namespace Quat

/-- The vector part of the quaternion. -/
def uvec (q : Quat) : Vec3 := ⟨q.qx, q.qy, q.qz⟩

/-- glam `DQuat * DVec3` rotation:
`2 * dot(u,v) * u + (w^2 - dot(u,u)) * v + 2 * w * cross(u,v)`. -/
def rotate (q : Quat) (v : Vec3) : Vec3 :=
  (q.uvec.smul (2 * q.uvec.dot v)) + (v.smul (q.w * q.w - q.uvec.dot q.uvec))
    + ((q.uvec.cross v).smul (2 * q.w))

/-- glam `DQuat::from_axis_angle`: `(axis * sin(angle/2), cos(angle/2))`. -/
noncomputable def fromAxisAngle (axis : Vec3) (angle : ℝ) : Quat :=
  ⟨Real.cos (angle / 2), axis.x * Real.sin (angle / 2),
    axis.y * Real.sin (angle / 2), axis.z * Real.sin (angle / 2)⟩

end Quat

/-- src/ray.rs `Ray`. -/
structure Ray where
  origin : Vec3
  dir : Vec3

/-- src/ray.rs `Ray::at`: `origin + dir * t`. -/
def Ray.at (r : Ray) (t : ℝ) : Vec3 := r.origin + r.dir.smul t

/-- src/material.rs `Material`. -/
structure Material where
  colour : Vec3
  diffusion : ℝ
  refractive_index : ℝ
  luminance : ℝ

/-- The random generator `R : Rng + SeedableRng`, modelled as a stream of raw
unit draws together with a position.  Each `gen_range` call consumes one draw. -/
structure Rng where
  stream : ℕ → ℝ
  pos : ℕ

/-- Advancing the generator by one draw. -/
def Rng.advance (g : Rng) : Rng := ⟨g.stream, g.pos + 1⟩

/-- Model of `rng.gen_range(lo..hi)`: maps the next raw unit draw `u` to `lo + (hi-lo)*u`
and advances the generator. -/
def genRange (lo hi : ℝ) (g : Rng) : ℝ × Rng :=
  (lo + (hi - lo) * g.stream g.pos, g.advance)

/-- src/collidable.rs `Collision` (the borrowed material reference is modelled
by value). -/
structure Collision where
  ray : Ray
  t : ℝ
  normal : Vec3
  material : Material

/-- src/collidable.rs `Plane`. -/
structure Plane where
  origin : Vec3
  normal : Vec3
  material : Material

/-- src/collidable.rs `impl Collideable for Plane`, `fn trace`.  The `&mut R`
argument is threaded explicitly; the body never uses it. -/
noncomputable def Plane.trace (p : Plane) (ray : Ray) (g : Rng) :
    Option Collision × Rng :=
  let numerator := -(ray.origin.x - p.origin.x) * p.normal.x
      - (ray.origin.y - p.origin.y) * p.normal.y
      - (ray.origin.z - p.origin.z) * p.normal.z
  let denominator := ray.dir.x * p.normal.x + ray.dir.y * p.normal.y
      + ray.dir.z * p.normal.z
  let t := numerator / denominator
  if t < 0 then (none, g)
  else (some ⟨ray, t, p.normal.normalize, p.material⟩, g)

/-- src/collidable.rs `Sphere`. -/
structure Sphere where
  origin : Vec3
  radius : ℝ
  material : Material

namespace Sphere

/-- The local `off = ray.origin - sphere.origin` in `Sphere::trace`. -/
def off (s : Sphere) (ray : Ray) : Vec3 :=
  ⟨ray.origin.x - s.origin.x, ray.origin.y - s.origin.y, ray.origin.z - s.origin.z⟩

/-- The local `a = ray.dir.length_squared()` in `Sphere::trace`. -/
def qa (s : Sphere) (ray : Ray) : ℝ := ray.dir.lengthSquared

/-- The local `b = 2 * (off.x*dir.x + off.y*dir.y + off.z*dir.z)` in `Sphere::trace`. -/
def qb (s : Sphere) (ray : Ray) : ℝ :=
  2 * ((s.off ray).x * ray.dir.x + (s.off ray).y * ray.dir.y
    + (s.off ray).z * ray.dir.z)

/-- The local `c = off.length_squared() - radius * radius` in `Sphere::trace`. -/
def qc (s : Sphere) (ray : Ray) : ℝ :=
  (s.off ray).lengthSquared - s.radius * s.radius

/-- The discriminant `disc = b*b - 4*a*c` in `Sphere::trace`. -/
def disc (s : Sphere) (ray : Ray) : ℝ :=
  s.qb ray * s.qb ray - 4 * s.qa ray * s.qc ray

/-- The root `t0 = (-b + sqrt(disc)) / (2*a)` in `Sphere::trace` (the far root). -/
noncomputable def t0 (s : Sphere) (ray : Ray) : ℝ :=
  (-s.qb ray + Real.sqrt (s.disc ray)) / (2 * s.qa ray)

/-- The root `t1 = (-b - sqrt(disc)) / (2*a)` in `Sphere::trace` (the near root). -/
noncomputable def t1 (s : Sphere) (ray : Ray) : ℝ :=
  (-s.qb ray - Real.sqrt (s.disc ray)) / (2 * s.qa ray)

/-- src/collidable.rs `impl Collideable for Sphere`, `fn trace`.  The mutable
`Option<f64>` local `t` is reproduced by the two successive conditionals. -/
noncomputable def trace (s : Sphere) (ray : Ray) (g : Rng) :
    Option Collision × Rng :=
  if s.disc ray < 0 then (none, g)
  else
    let tOpt : Option ℝ := if 0 < s.t0 ray then some (s.t0 ray) else none
    let tOpt : Option ℝ :=
      if 0 < s.t1 ray then tOpt.map (fun v => min v (s.t1 ray)) else tOpt
    match tOpt with
    | some tv => (some ⟨ray, tv, (ray.at tv - s.origin).normalize, s.material⟩, g)
    | none => (none, g)

end Sphere

/-- The `dyn Collideable` trait objects held by the solver. -/
inductive Object where
  | plane : Plane → Object
  | sphere : Sphere → Object

/-- Dispatch of `Collideable::trace` over the two implementations. -/
noncomputable def Object.trace : Object → Ray → Rng → Option Collision × Rng
  | .plane p, ray, g => p.trace ray g
  | .sphere s, ray, g => s.trace ray g

/-- src/camera.rs `OrthCamera`. -/
structure OrthCamera where
  origin : Vec3
  rotation : Quat
  size : ℝ × ℝ

/-- src/camera.rs `impl Camera for OrthCamera`, `fn outgoing_ray`.  The two
jitter draws happen in source order (x first, then y); the in-plane offset is
added to `origin` unrotated, and only the direction is rotated. -/
noncomputable def OrthCamera.outgoing_ray (c : OrthCamera) (res : ℕ × ℕ)
    (pixel : ℤ × ℤ) (g : Rng) : Ray × Rng :=
  let scale_x := c.size.1 / (res.1 : ℝ)
  let scale_y := c.size.2 / (res.2 : ℝ)
  let og1 := genRange (-scale_x / 2) (scale_x / 2) g
  let og2 := genRange (-scale_y / 2) (scale_y / 2) og1.2
  let origin0 : Vec3 :=
    ⟨(pixel.1 : ℝ) * scale_x + scale_x / 2 - c.size.1 / 2 + og1.1,
     (pixel.2 : ℝ) * scale_y + scale_y / 2 - c.size.2 / 2 + og2.1, 0⟩
  (⟨origin0 + c.origin, c.rotation.rotate ⟨0, 0, 1⟩⟩, og2.2)

/-- src/solver.rs `Solver`.  The generic camera `C : Camera` is modelled by its
`outgoing_ray` function; `resolution` is a pair of naturals (`UVec2`). -/
structure Solver where
  camera : ℕ × ℕ → ℤ × ℤ → Rng → Ray × Rng
  resolution : ℕ × ℕ
  max_bounces : ℕ
  samples : ℕ
  objects : List Object
  sky : Vec3 → Vec3

/-- The default sky installed by `Solver::new`:
`|d| DVec3::new(0.7, 0.7, 1.0) * (d.y + 0.2)`. -/
noncomputable def defaultSky : Vec3 → Vec3 :=
  fun d => (Vec3.mk 0.7 0.7 1).smul (d.y + 0.2)

/-- src/solver.rs `Solver::new`: defaults `max_bounces = 0`, `samples = 1`,
empty object list, default sky.  No validation of any argument occurs. -/
noncomputable def Solver.new
    (camera : ℕ × ℕ → ℤ × ℤ → Rng → Ray × Rng) (resolution : ℕ × ℕ) : Solver :=
  ⟨camera, resolution, 0, 1, [], defaultSky⟩

/-- src/solver.rs `Solver::with_max_bounces`. -/
def Solver.with_max_bounces (s : Solver) (n : ℕ) : Solver :=
  { s with max_bounces := n }

/-- src/solver.rs `Solver::with_samples`.  No lower bound is enforced. -/
def Solver.with_samples (s : Solver) (n : ℕ) : Solver :=
  { s with samples := n }

/-- The `filter_map(trace).fold(None, min-by-t)` pipeline at the top of
`Solver::sample`, with the generator threaded through each `trace` call in
list order.  A new collision replaces the accumulator exactly when the
accumulated `t` (or infinity for `None`) is strictly greater. -/
noncomputable def traceFold (ray : Ray) :
    List Object → Rng → Option Collision → Option Collision × Rng
  | [], g, acc => (acc, g)
  | o :: os, g, acc =>
    let cg := o.trace ray g
    let acc1 :=
      match cg.1 with
      | none => acc
      | some c =>
        match acc with
        | none => some c
        | some m => if c.t < m.t then some c else some m
    traceFold ray os cg.2 acc1

/-- The nearest-hit selection over the whole object list. -/
noncomputable def traceAll (objs : List Object) (ray : Ray) (g : Rng) :
    Option Collision × Rng :=
  traceFold ray objs g none

/-- The entering/exiting test of `Solver::sample`: if `normal · dir < 0` the
ray is incoming, giving `(n1, n2, directed_normal) = (1, index, -normal)`;
otherwise `(index, 1, normal)`. -/
noncomputable def snellSetup (c : Collision) : ℝ × ℝ × Vec3 :=
  if c.normal.dot c.ray.dir < 0 then (1, c.material.refractive_index, -c.normal)
  else (c.material.refractive_index, 1, c.normal)

/-- The Fresnel unpolarized reflectance computed in `Solver::sample`:
the average of `rs` and `rp` built from `n1`, `n2`, the incidence angle, and
the transmission angle `asin(n1/n2 * sin(incidence))`. -/
noncomputable def fresnelR (n1 n2 incidence : ℝ) : ℝ :=
  let sin_a2 := n1 / n2 * Real.sin incidence
  let transmission_angle := Real.arcsin sin_a2
  let cosi := Real.cos incidence
  let cost := Real.cos transmission_angle
  let rs := |(n1 * cosi - n2 * cost) / (n1 * cosi + n2 * cost)| ^ 2
  let rp := |(n1 * cost - n2 * cosi) / (n1 * cost + n2 * cosi)| ^ 2
  (rs + rp) / 2

/-- The branch of `Solver::sample` deciding between reflection and
transmission: total internal reflection (`sin_a2 > 1`) yields `none` without
consuming a random draw; otherwise one uniform draw is compared with the
Fresnel reflectance. -/
noncomputable def transmissionDecision (n1 n2 incidence : ℝ) (g : Rng) :
    Option ℝ × Rng :=
  let sin_a2 := n1 / n2 * Real.sin incidence
  if 1 < sin_a2 then (none, g)
  else
    let transmission_angle := Real.arcsin sin_a2
    let r := fresnelR n1 n2 incidence
    let dg := genRange 0 1 g
    if dg.1 < r then (none, dg.2) else (some transmission_angle, dg.2)

/-- The transmit branch of `Solver::sample`: hit position offset past the
surface, direction obtained by rotating the directed normal about
`dir × directed_normal` by the transmission angle. -/
noncomputable def transmitRay (c : Collision) (dn : Vec3) (ta : ℝ) : Ray :=
  let hit_pos := c.ray.at (c.t * 1.0001)
  ⟨hit_pos, (Quat.fromAxisAngle (c.ray.dir.cross dn) ta).rotate dn⟩

/-- The reflect branch of `Solver::sample`: hit position offset before the
surface, two uniform angle draws building a random unit vector, hemisphere
bias by the sign of `(hit_pos + normal) · ray.origin`, and a lerp between the
mirror target and the diffuse target by the material diffusion. -/
noncomputable def reflectRay (ray : Ray) (c : Collision) (g : Rng) : Ray × Rng :=
  let hit_pos := c.ray.at (c.t * 0.9999)
  let tg := genRange 0 (2 * Real.pi) g
  let tg2 := genRange 0 (2 * Real.pi) tg.2
  let random_unit_vector : Vec3 :=
    ⟨Real.cos tg.1 * Real.cos tg2.1, Real.cos tg.1 * Real.sin tg2.1,
      Real.sin tg.1⟩
  let reflect_target := ray.dir + c.normal.smul 2
  let diffuse_target :=
    if 0 < (hit_pos + c.normal).dot c.ray.origin then
      random_unit_vector + c.normal
    else random_unit_vector - c.normal
  (⟨hit_pos, reflect_target.lerp diffuse_target c.material.diffusion⟩, tg2.2)

/-- The new-ray construction of `Solver::sample` after a collision survives
the bounce check: Snell setup, transmission decision, then either the
transmit or the reflect branch. -/
noncomputable def sampleNewRay (ray : Ray) (c : Collision) (g : Rng) :
    Ray × Rng :=
  let n1 := (snellSetup c).1
  let n2 := (snellSetup c).2.1
  let dn := (snellSetup c).2.2
  let incidence := c.ray.dir.angleBetween dn
  let dec := transmissionDecision n1 n2 incidence g
  match dec.1 with
  | some ta => (transmitRay c dn ta, dec.2)
  | none => reflectRay ray c dec.2

/-- src/solver.rs `Solver::sample`: trace all objects, return the sky on a
miss, return zero once the bounce budget is exhausted, otherwise recurse on
the new ray at `bounce + 1` and combine with the colour and emission terms. -/
noncomputable def Solver.sample (s : Solver) (ray : Ray) (bounce : ℕ)
    (g : Rng) : Vec3 × Rng :=
  let tc := traceAll s.objects ray g
  match tc.1 with
  | none => (s.sky ray.dir, tc.2)
  | some c =>
    if h : s.max_bounces ≤ bounce then (0, tc.2)
    else
      let rg := sampleNewRay ray c tc.2
      let vg := s.sample rg.1 (bounce + 1) rg.2
      (c.material.colour * vg.1 + c.material.colour.smul c.material.luminance,
        vg.2)
termination_by s.max_bounces + 1 - bounce
decreasing_by simp_wf; omega

/-- The recursion-depth counter of `Solver::sample`: mirrors its control flow
exactly, counting one for the call itself plus the depth of the single
recursive call when one is made. -/
noncomputable def Solver.sampleDepth (s : Solver) (ray : Ray) (bounce : ℕ)
    (g : Rng) : ℕ :=
  let tc := traceAll s.objects ray g
  match tc.1 with
  | none => 1
  | some c =>
    if h : s.max_bounces ≤ bounce then 1
    else
      let rg := sampleNewRay ray c tc.2
      1 + s.sampleDepth rg.1 (bounce + 1) rg.2
termination_by s.max_bounces + 1 - bounce
decreasing_by simp_wf; omega

/-- One 8-bit output channel of a pixel. -/
structure Pixel where
  r : ℕ
  g : ℕ
  b : ℕ
deriving DecidableEq

/-- The tone-mapping of one channel in `Solver::solve`:
`(v.clamp(0.0, 1.0) * 255.0) as u8`. -/
noncomputable def toByte (v : ℝ) : ℕ := ⌊min (max v 0) 1 * 255⌋₊

/-- The inner `for _ in 0..samples` loop of `Solver::solve`: each iteration
draws a camera ray and feeds it to the sampler at bounce depth 0, summing the
radiance. -/
noncomputable def sampleLoop (s : Solver) (x y : ℕ) :
    ℕ → Rng → Vec3 × Rng
  | 0, g => (0, g)
  | n + 1, g =>
    let rg := s.camera s.resolution ((x : ℤ), (y : ℤ)) g
    let vg := s.sample rg.1 0 rg.2
    let rest := sampleLoop s x y n vg.2
    (vg.1 + rest.1, rest.2)

/-- The per-pixel body of `Solver::solve`: accumulate `samples` samples,
average by `1 / samples`, clamp and scale each channel to a byte. -/
noncomputable def renderPixel (s : Solver) (x y : ℕ) (g : Rng) : Pixel × Rng :=
  let sg := sampleLoop s x y s.samples g
  let avg_scale := 1 / (s.samples : ℝ)
  (⟨toByte (sg.1.x * avg_scale), toByte (sg.1.y * avg_scale),
      toByte (sg.1.z * avg_scale)⟩, sg.2)

/-- The inner `for y in 0..resolution.y` loop of `Solver::solve`, producing
the pixels of one column in render order (`y` increasing). -/
noncomputable def renderPixels (s : Solver) (x : ℕ) :
    ℕ → ℕ → Rng → List Pixel × Rng
  | _, 0, g => ([], g)
  | y0, n + 1, g =>
    let pg := renderPixel s x y0 g
    let rest := renderPixels s x (y0 + 1) n pg.2
    (pg.1 :: rest.1, rest.2)

/-- The outer `for x in 0..resolution.x` loop of `Solver::solve`. -/
noncomputable def renderCols (s : Solver) :
    ℕ → ℕ → Rng → List (List Pixel) × Rng
  | _, 0, g => ([], g)
  | x0, n + 1, g =>
    let cg := renderPixels s x0 0 s.resolution.2 g
    let rest := renderCols s (x0 + 1) n cg.2
    (cg.1 :: rest.1, rest.2)

/-- src/solver.rs `Solver::solve` for a seeded generator state: the image as
a list of columns, each a list of pixels in render order.  (The buffer write
at `resolution.y - y - 1` is a vertical relabelling of the same data.) -/
noncomputable def Solver.solve (s : Solver) (g : Rng) : List (List Pixel) :=
  (renderCols s 0 s.resolution.1 g).1

/-- The outer loop of `Solver::solve` with the `ProgressBar` modelled as a
counter incremented by `resolution.x` after each column, exactly where
`bar.inc` is called. -/
noncomputable def renderColsP (s : Solver) :
    ℕ → ℕ → Rng → ℕ → (List (List Pixel) × Rng) × ℕ
  | _, 0, g, p => (([], g), p)
  | x0, n + 1, g, p =>
    let cg := renderPixels s x0 0 s.resolution.2 g
    let rest := renderColsP s (x0 + 1) n cg.2 (p + s.resolution.1)
    ((cg.1 :: rest.1.1, rest.1.2), rest.2)

/-- The image of `Solver::solve` together with the final progress counter. -/
noncomputable def Solver.solveWithProgress (s : Solver) (g : Rng) :
    List (List Pixel) × ℕ :=
  let r := renderColsP s 0 s.resolution.1 g 0
  (r.1.1, r.2)

end Raytrace

namespace Raytrace

/-! ## Generator-preservation lemmas for the intersection routines -/

lemma plane_trace_rng (p : Plane) (ray : Ray) (g : Rng) :
    (p.trace ray g).2 = g := by
  unfold Plane.trace
  dsimp only
  split <;> rfl

lemma sphere_trace_rng (s : Sphere) (ray : Ray) (g : Rng) :
    (s.trace ray g).2 = g := by
  unfold Sphere.trace
  dsimp only
  split
  · rfl
  · split <;> rfl

lemma object_trace_rng (o : Object) (ray : Ray) (g : Rng) :
    (o.trace ray g).2 = g := by
  cases o with
  | plane p => exact plane_trace_rng p ray g
  | sphere s => exact sphere_trace_rng s ray g

lemma traceFold_rng (ray : Ray) :
    ∀ (objs : List Object) (g : Rng) (acc : Option Collision),
      (traceFold ray objs g acc).2 = g := by
  intro objs
  induction objs with
  | nil => intro g acc; rfl
  | cons o os ih =>
    intro g acc
    simp only [traceFold]
    rw [ih, object_trace_rng]

/-- C10: neither `Plane::trace` nor `Sphere::trace` reads or advances the
random generator passed to it — the generator state after any trace call
(and after the whole nearest-hit scan) equals its state before. -/
theorem c10_trace_preserves_rng :
    (∀ (p : Plane) (ray : Ray) (g : Rng), (p.trace ray g).2 = g) ∧
    (∀ (s : Sphere) (ray : Ray) (g : Rng), (s.trace ray g).2 = g) ∧
    (∀ (objs : List Object) (ray : Ray) (g : Rng), (traceAll objs ray g).2 = g) :=
  ⟨plane_trace_rng, sphere_trace_rng,
    fun objs ray g => traceFold_rng ray objs g none⟩

/-! ## Determinism and progress reporting -/

lemma renderColsP_image (s : Solver) :
    ∀ (n x0 : ℕ) (g : Rng) (p : ℕ),
      (renderColsP s x0 n g p).1 = renderCols s x0 n g := by
  intro n
  induction n with
  | zero => intro x0 g p; rfl
  | succ n ih =>
    intro x0 g p
    simp only [renderColsP, renderCols]
    rw [ih]

/-- C3: two executions of `solve` with identical solver configuration and
identical seeded generator state produce identical images, and the image
computed with progress reporting threaded through is the same image. -/
theorem c3_determinism (s1 s2 : Solver) (g1 g2 : Rng)
    (h1 : s1 = s2) (h2 : g1 = g2) :
    s1.solve g1 = s2.solve g2 ∧
      (s1.solveWithProgress g1).1 = s1.solve g1 := by
  subst h1
  subst h2
  refine ⟨rfl, ?_⟩
  show (renderColsP s1 0 s1.resolution.1 g1 0).1.1
      = (renderCols s1 0 s1.resolution.1 g1).1
  rw [renderColsP_image]

/-- The all-zero unit-draw stream, used as a concrete generator state. -/
def zeroRng : Rng := ⟨fun _ => 0, 0⟩

/-- A concrete solver over a trivial fixed camera, for witnesses. -/
noncomputable def c3solver : Solver :=
  Solver.new (fun _ _ g => (⟨⟨0, 0, 0⟩, ⟨0, 0, 1⟩⟩, g)) (1, 1)

theorem c3_witness :
    c3solver.solve zeroRng = c3solver.solve zeroRng ∧
      (c3solver.solveWithProgress zeroRng).1 = c3solver.solve zeroRng :=
  c3_determinism c3solver c3solver zeroRng zeroRng rfl rfl

/-! ## Termination of the recursive sampler -/

lemma sampleDepth_le (s : Solver) (n : ℕ) :
    ∀ (bounce : ℕ) (ray : Ray) (g : Rng), s.max_bounces + 1 - bounce ≤ n →
      s.sampleDepth ray bounce g ≤ s.max_bounces - bounce + 1 := by
  induction n with
  | zero =>
    intro bounce ray g hn
    rw [Solver.sampleDepth]
    have hb : s.max_bounces ≤ bounce := by omega
    split
    · omega
    · rw [dif_pos hb]
      omega
  | succ n ih =>
    intro bounce ray g hn
    rw [Solver.sampleDepth]
    split
    · omega
    · by_cases hb : s.max_bounces ≤ bounce
      · rw [dif_pos hb]
        omega
      · rw [dif_neg hb]
        dsimp only
        refine le_trans (Nat.add_le_add_left (ih (bounce + 1) _ _ (by omega)) 1) ?_
        omega

/-- C9: the recursive sampler terminates — it recurses only at depth
`bounce + 1` and only when `bounce < max_bounces`, so the recursion depth of a
call at depth `bounce` is bounded by `max_bounces - bounce + 1`. -/
theorem c9_sample_depth_bound (s : Solver) (ray : Ray) (bounce : ℕ) (g : Rng) :
    s.sampleDepth ray bounce g ≤ s.max_bounces - bounce + 1 :=
  sampleDepth_le s (s.max_bounces + 1 - bounce) bounce ray g le_rfl

/-! ## Total internal reflection -/

/-- C4: in the transport sampler, whenever `n1/n2 * sin(incidence) > 1`, the
transmission decision is `none` without consuming any random draw, and the
new ray is the reflect-branch ray, for every generator state. -/
theorem c4_total_internal_reflection (ray : Ray) (c : Collision) (g : Rng)
    (h : 1 < (snellSetup c).1 / (snellSetup c).2.1 *
        Real.sin (c.ray.dir.angleBetween (snellSetup c).2.2)) :
    (transmissionDecision (snellSetup c).1 (snellSetup c).2.1
        (c.ray.dir.angleBetween (snellSetup c).2.2) g).1 = none ∧
      sampleNewRay ray c g = reflectRay ray c g := by
  have hd : transmissionDecision (snellSetup c).1 (snellSetup c).2.1
      (c.ray.dir.angleBetween (snellSetup c).2.2) g = (none, g) := by
    unfold transmissionDecision
    rw [if_pos h]
  refine ⟨by rw [hd], ?_⟩
  unfold sampleNewRay
  dsimp only
  rw [hd]

/-- The material of the concrete total-internal-reflection collision:
refractive index 2, so the exiting ray sees `n1/n2 = 2`. -/
noncomputable def c4mat : Material := ⟨⟨1, 1, 1⟩, 0, 2, 0⟩

/-- A collision whose ray grazes along the surface: direction `(1,0,0)`,
normal `(0,1,0)`, so the incidence angle is `π/2`. -/
noncomputable def c4col : Collision :=
  ⟨⟨⟨0, 0, 0⟩, ⟨1, 0, 0⟩⟩, 1, ⟨0, 1, 0⟩, c4mat⟩

lemma c4snell : snellSetup c4col = (2, 1, ⟨0, 1, 0⟩) := by
  unfold snellSetup
  rw [if_neg]
  · rfl
  · show ¬ Vec3.dot ⟨0, 1, 0⟩ ⟨1, 0, 0⟩ < 0
    norm_num [Vec3.dot]

lemma c4incidence :
    Vec3.angleBetween (Vec3.mk 1 0 0) ⟨0, 1, 0⟩ = Real.pi / 2 := by
  unfold Vec3.angleBetween
  norm_num [Vec3.dot, Vec3.lengthSquared, Real.arccos_zero]

theorem c4_witness :
    (1 < (snellSetup c4col).1 / (snellSetup c4col).2.1 *
        Real.sin (c4col.ray.dir.angleBetween (snellSetup c4col).2.2)) ∧
    ((transmissionDecision (snellSetup c4col).1 (snellSetup c4col).2.1
        (c4col.ray.dir.angleBetween (snellSetup c4col).2.2) zeroRng).1 = none ∧
      sampleNewRay c4col.ray c4col zeroRng = reflectRay c4col.ray c4col zeroRng) := by
  have h : 1 < (snellSetup c4col).1 / (snellSetup c4col).2.1 *
      Real.sin (c4col.ray.dir.angleBetween (snellSetup c4col).2.2) := by
    rw [c4snell]
    show 1 < 2 / 1 * Real.sin (Vec3.angleBetween (Vec3.mk 1 0 0) ⟨0, 1, 0⟩)
    rw [c4incidence, Real.sin_pi_div_two]
    norm_num
  exact ⟨h, c4_total_internal_reflection c4col.ray c4col zeroRng h⟩

/-! ## Sign of the collision parameter -/

lemma plane_trace_some (p : Plane) (ray : Ray) (g : Rng) (c : Collision)
    (h : (p.trace ray g).1 = some c) : 0 ≤ c.t := by
  unfold Plane.trace at h
  dsimp only at h
  by_cases hlt : (-(ray.origin.x - p.origin.x) * p.normal.x
      - (ray.origin.y - p.origin.y) * p.normal.y
      - (ray.origin.z - p.origin.z) * p.normal.z) /
      (ray.dir.x * p.normal.x + ray.dir.y * p.normal.y
        + ray.dir.z * p.normal.z) < 0
  · rw [if_pos hlt] at h
    exact absurd h (by simp)
  · rw [if_neg hlt] at h
    simp only [Option.some.injEq] at h
    rw [← h]
    exact not_lt.mp hlt

lemma sphere_trace_some (s : Sphere) (ray : Ray) (g : Rng) (c : Collision)
    (h : (s.trace ray g).1 = some c) : 0 < c.t := by
  unfold Sphere.trace at h
  dsimp only at h
  by_cases hd : s.disc ray < 0
  · rw [if_pos hd] at h
    exact absurd h (by simp)
  · rw [if_neg hd] at h
    by_cases h1 : 0 < s.t1 ray <;> by_cases h0 : 0 < s.t0 ray
    · rw [if_pos h1, if_pos h0] at h
      simp only [Option.map_some'] at h
      simp only [Option.some.injEq] at h
      rw [← h]
      exact lt_min h0 h1
    · rw [if_pos h1, if_neg h0] at h
      simp only [Option.map_none'] at h
      exact absurd h (by simp)
    · rw [if_neg h1, if_pos h0] at h
      simp only [Option.some.injEq] at h
      rw [← h]
      exact h0
    · rw [if_neg h1, if_neg h0] at h
      exact absurd h (by simp)

/-- C2 (amended): a returned `Collision` from `Sphere::trace` always has a
strictly positive `t`, but `Plane::trace` guarantees only `t ≥ 0`: it rejects
`t < 0` alone, so `t = 0` can be returned. -/
theorem c2_amended_t_sign :
    (∀ (p : Plane) (ray : Ray) (g : Rng) (c : Collision),
        (p.trace ray g).1 = some c → 0 ≤ c.t) ∧
    (∀ (s : Sphere) (ray : Ray) (g : Rng) (c : Collision),
        (s.trace ray g).1 = some c → 0 < c.t) :=
  ⟨plane_trace_some, sphere_trace_some⟩

/-- A plain white non-emissive material used for concrete scenes. -/
noncomputable def whiteMat : Material := ⟨⟨1, 1, 1⟩, 0, 0, 0⟩

/-- The plane `z = 0` with unit normal. -/
noncomputable def c2plane : Plane := ⟨⟨0, 0, 0⟩, ⟨0, 0, 1⟩, whiteMat⟩

/-- A ray whose origin lies exactly on `c2plane` and is not parallel to it. -/
noncomputable def c2ray : Ray := ⟨⟨0, 0, 0⟩, ⟨1, 0, 1⟩⟩

lemma c2plane_trace_eq :
    (c2plane.trace c2ray zeroRng).1
      = some ⟨c2ray, 0, Vec3.normalize ⟨0, 0, 1⟩, whiteMat⟩ := by
  unfold Plane.trace
  dsimp only
  rw [if_neg]
  · norm_num [c2plane, c2ray]
  · norm_num [c2plane, c2ray]

/-- C2 counterexample: the claim that every returned collision has a strictly
positive `t` is false — a ray whose origin lies on the plane produces a
collision with `t = 0`. -/
theorem c2_counterexample :
    ¬ (∀ (p : Plane) (ray : Ray) (g : Rng) (c : Collision),
        (p.trace ray g).1 = some c → 0 < c.t) := by
  intro hall
  exact absurd (hall c2plane c2ray zeroRng _ c2plane_trace_eq) (by simp)

theorem c2_witness :
    ((c2plane.trace c2ray zeroRng).1
        = some ⟨c2ray, 0, Vec3.normalize ⟨0, 0, 1⟩, whiteMat⟩) ∧
      (0 : ℝ) ≤ (Collision.mk c2ray 0 (Vec3.normalize ⟨0, 0, 1⟩) whiteMat).t :=
  ⟨c2plane_trace_eq,
    c2_amended_t_sign.1 c2plane c2ray zeroRng _ c2plane_trace_eq⟩

/-! ## Sphere root selection -/

lemma qa_pos (s : Sphere) (ray : Ray) (h : ray.dir ≠ ⟨0, 0, 0⟩) :
    0 < s.qa ray := by
  have h0 : 0 ≤ s.qa ray := by
    unfold Sphere.qa Vec3.lengthSquared
    nlinarith [mul_self_nonneg ray.dir.x, mul_self_nonneg ray.dir.y,
      mul_self_nonneg ray.dir.z]
  rcases eq_or_lt_of_le h0 with heq | hlt
  · exfalso
    apply h
    have hsum : ray.dir.x * ray.dir.x + ray.dir.y * ray.dir.y
        + ray.dir.z * ray.dir.z = 0 := by
      unfold Sphere.qa Vec3.lengthSquared at heq
      linarith
    have hx : ray.dir.x = 0 := by
      nlinarith [mul_self_nonneg ray.dir.x, mul_self_nonneg ray.dir.y,
        mul_self_nonneg ray.dir.z]
    have hy : ray.dir.y = 0 := by
      nlinarith [mul_self_nonneg ray.dir.x, mul_self_nonneg ray.dir.y,
        mul_self_nonneg ray.dir.z]
    have hz : ray.dir.z = 0 := by
      nlinarith [mul_self_nonneg ray.dir.x, mul_self_nonneg ray.dir.y,
        mul_self_nonneg ray.dir.z]
    have : ray.dir = ⟨ray.dir.x, ray.dir.y, ray.dir.z⟩ := rfl
    rw [this, hx, hy, hz]
  · exact hlt

lemma t1_le_t0 (s : Sphere) (ray : Ray) (h : ray.dir ≠ ⟨0, 0, 0⟩) :
    s.t1 ray ≤ s.t0 ray := by
  have ha := qa_pos s ray h
  unfold Sphere.t0 Sphere.t1
  apply div_le_div_of_nonneg_right ?_ (by linarith)
  have := Real.sqrt_nonneg (s.disc ray)
  linarith

/-- C5: `Sphere::trace` returns no collision when the discriminant is negative
or when neither root is strictly positive; otherwise the returned `t` is the
near root `t1` whenever it is positive, and the far root `t0` only when
`t1 ≤ 0 < t0` (ray origin inside the sphere). -/
theorem c5_sphere_root_selection (s : Sphere) (ray : Ray) (g : Rng)
    (h : ray.dir ≠ ⟨0, 0, 0⟩) :
    s.t1 ray ≤ s.t0 ray ∧
    (s.disc ray < 0 → (s.trace ray g).1 = none) ∧
    (¬ s.disc ray < 0 → s.t0 ray ≤ 0 → (s.trace ray g).1 = none) ∧
    (¬ s.disc ray < 0 → 0 < s.t1 ray →
      Option.map Collision.t (s.trace ray g).1 = some (s.t1 ray)) ∧
    (¬ s.disc ray < 0 → s.t1 ray ≤ 0 → 0 < s.t0 ray →
      Option.map Collision.t (s.trace ray g).1 = some (s.t0 ray)) := by
  have h10 := t1_le_t0 s ray h
  refine ⟨h10, ?_, ?_, ?_, ?_⟩
  · intro hd
    unfold Sphere.trace
    rw [if_pos hd]
  · intro hd ht0
    unfold Sphere.trace
    dsimp only
    rw [if_neg hd, if_neg (by linarith : ¬ 0 < s.t1 ray),
      if_neg (by linarith : ¬ 0 < s.t0 ray)]
  · intro hd ht1
    have ht0 : 0 < s.t0 ray := lt_of_lt_of_le ht1 h10
    unfold Sphere.trace
    dsimp only
    rw [if_neg hd, if_pos ht1, if_pos ht0]
    simp only [Option.map_some']
    rw [min_eq_right h10]
  · intro hd ht1 ht0
    unfold Sphere.trace
    dsimp only
    rw [if_neg hd, if_neg (by linarith : ¬ 0 < s.t1 ray), if_pos ht0]
    rfl

/-- A unit sphere centred three units down the z-axis. -/
noncomputable def c5sphere : Sphere := ⟨⟨0, 0, 3⟩, 1, whiteMat⟩

/-- A ray from the world origin straight along the z-axis. -/
noncomputable def c5ray : Ray := ⟨⟨0, 0, 0⟩, ⟨0, 0, 1⟩⟩

theorem c5_witness :
    ((c5ray.dir ≠ ⟨0, 0, 0⟩) ∧
      (c5sphere.t1 c5ray ≤ c5sphere.t0 c5ray ∧
      (c5sphere.disc c5ray < 0 → (c5sphere.trace c5ray zeroRng).1 = none) ∧
      (¬ c5sphere.disc c5ray < 0 → c5sphere.t0 c5ray ≤ 0 →
        (c5sphere.trace c5ray zeroRng).1 = none) ∧
      (¬ c5sphere.disc c5ray < 0 → 0 < c5sphere.t1 c5ray →
        Option.map Collision.t (c5sphere.trace c5ray zeroRng).1
          = some (c5sphere.t1 c5ray)) ∧
      (¬ c5sphere.disc c5ray < 0 → c5sphere.t1 c5ray ≤ 0 →
        0 < c5sphere.t0 c5ray →
        Option.map Collision.t (c5sphere.trace c5ray zeroRng).1
          = some (c5sphere.t0 c5ray)))) := by
  have h : c5ray.dir ≠ ⟨0, 0, 0⟩ := by
    show Vec3.mk 0 0 1 ≠ ⟨0, 0, 0⟩
    simp [Vec3.mk.injEq]
  exact ⟨h, c5_sphere_root_selection c5sphere c5ray zeroRng h⟩

/-! ## Fresnel reflectance bounds -/

lemma abs_ratio_le_one {A B : ℝ} (hA : 0 ≤ A) (hB : 0 ≤ B) :
    |(A - B) / (A + B)| ≤ 1 := by
  rcases eq_or_lt_of_le (by linarith : (0 : ℝ) ≤ A + B) with heq | hpos
  · have hA0 : A = 0 := by linarith
    have hB0 : B = 0 := by linarith
    simp [hA0, hB0]
  · rw [abs_div, abs_of_pos hpos, div_le_one hpos]
    exact abs_le.mpr ⟨by linarith, by linarith⟩

lemma cos_arcsin_nonneg (u : ℝ) : 0 ≤ Real.cos (Real.arcsin u) := by
  rw [Real.cos_arcsin]
  exact Real.sqrt_nonneg _

/-- C6: for nonnegative refractive indices and any incidence angle with
nonnegative cosine (as produced by the sampler's directed normal), the
unpolarized Fresnel reflectance lies in `[0, 1]`; and for `n1 = n2` it is `0`
at normal incidence. -/
theorem c6_fresnel_bounds (n1 n2 θ : ℝ) (h1 : 0 ≤ n1) (h2 : 0 ≤ n2)
    (hc : 0 ≤ Real.cos θ) :
    (0 ≤ fresnelR n1 n2 θ ∧ fresnelR n1 n2 θ ≤ 1) ∧
      (n1 = n2 → fresnelR n1 n2 0 = 0) := by
  refine ⟨⟨?_, ?_⟩, ?_⟩
  · unfold fresnelR
    positivity
  · unfold fresnelR
    dsimp only
    have hcost := cos_arcsin_nonneg (n1 / n2 * Real.sin θ)
    have hrs : |(n1 * Real.cos θ
        - n2 * Real.cos (Real.arcsin (n1 / n2 * Real.sin θ)))
        / (n1 * Real.cos θ
          + n2 * Real.cos (Real.arcsin (n1 / n2 * Real.sin θ)))| ≤ 1 :=
      abs_ratio_le_one (mul_nonneg h1 hc) (mul_nonneg h2 hcost)
    have hrp : |(n1 * Real.cos (Real.arcsin (n1 / n2 * Real.sin θ))
        - n2 * Real.cos θ)
        / (n1 * Real.cos (Real.arcsin (n1 / n2 * Real.sin θ))
          + n2 * Real.cos θ)| ≤ 1 :=
      abs_ratio_le_one (mul_nonneg h1 hcost) (mul_nonneg h2 hc)
    have hrs2 : |(n1 * Real.cos θ
        - n2 * Real.cos (Real.arcsin (n1 / n2 * Real.sin θ)))
        / (n1 * Real.cos θ
          + n2 * Real.cos (Real.arcsin (n1 / n2 * Real.sin θ)))| ^ 2 ≤ 1 :=
      pow_le_one₀ (abs_nonneg _) hrs
    have hrp2 : |(n1 * Real.cos (Real.arcsin (n1 / n2 * Real.sin θ))
        - n2 * Real.cos θ)
        / (n1 * Real.cos (Real.arcsin (n1 / n2 * Real.sin θ))
          + n2 * Real.cos θ)| ^ 2 ≤ 1 :=
      pow_le_one₀ (abs_nonneg _) hrp
    linarith
  · intro he
    subst he
    unfold fresnelR
    simp [Real.sin_zero, Real.arcsin_zero, Real.cos_zero]

theorem c6_witness :
    ((0 : ℝ) ≤ 1 ∧ (0 : ℝ) ≤ 1 ∧ 0 ≤ Real.cos 0) ∧
      ((0 ≤ fresnelR 1 1 0 ∧ fresnelR 1 1 0 ≤ 1) ∧
        ((1 : ℝ) = 1 → fresnelR 1 1 0 = 0)) := by
  have hc : (0 : ℝ) ≤ Real.cos 0 := by
    rw [Real.cos_zero]
    norm_num
  exact ⟨⟨by norm_num, by norm_num, hc⟩,
    c6_fresnel_bounds 1 1 0 (by norm_num) (by norm_num) hc⟩

/-! ## Componentwise reduction lemmas for the vector operations -/

@[simp] lemma vec3_zero_def : (0 : Vec3) = ⟨0, 0, 0⟩ := rfl

@[simp] lemma vec3_zero_x : (0 : Vec3).x = 0 := rfl

@[simp] lemma vec3_zero_y : (0 : Vec3).y = 0 := rfl

@[simp] lemma vec3_zero_z : (0 : Vec3).z = 0 := rfl

@[simp] lemma vec3_add_def (a b : Vec3) :
    a + b = ⟨a.x + b.x, a.y + b.y, a.z + b.z⟩ := rfl

@[simp] lemma vec3_sub_def (a b : Vec3) :
    a - b = ⟨a.x - b.x, a.y - b.y, a.z - b.z⟩ := rfl

@[simp] lemma vec3_neg_def (a : Vec3) : -a = ⟨-a.x, -a.y, -a.z⟩ := rfl

@[simp] lemma vec3_mul_def (a b : Vec3) :
    a * b = ⟨a.x * b.x, a.y * b.y, a.z * b.z⟩ := rfl

/-! ## Orthographic camera ray geometry -/

/-- C8 (amended): the orthographic ray direction is the camera's local
forward axis rotated by the rotation quaternion, the ray origin is the camera
origin plus an in-plane offset that is NOT rotated (it stays in the world
`z = 0` plane of the pixel grid), and all rays of a fixed configuration are
parallel. -/
theorem c8_amended_orth_ray (cam : OrthCamera) (res : ℕ × ℕ)
    (pixel : ℤ × ℤ) (g : Rng) :
    (cam.outgoing_ray res pixel g).1.dir = cam.rotation.rotate ⟨0, 0, 1⟩ ∧
    (∃ a b : ℝ,
      (cam.outgoing_ray res pixel g).1.origin = Vec3.mk a b 0 + cam.origin) ∧
    (∀ (pixel2 : ℤ × ℤ) (g2 : Rng),
      (cam.outgoing_ray res pixel2 g2).1.dir
        = (cam.outgoing_ray res pixel g).1.dir) :=
  ⟨rfl, ⟨_, _, rfl⟩, fun _ _ => rfl⟩

/-- A camera rotated about the x-axis by the rational rotation of the unit
quaternion `(4/5, 3/5, 0, 0)`, which maps the local view plane out of the
world `z = 0` plane. -/
noncomputable def c8cam : OrthCamera := ⟨⟨0, 0, 0⟩, ⟨4 / 5, 3 / 5, 0, 0⟩, (2, 2)⟩

/-- C8 counterexample: for `c8cam` at resolution 1×1, pixel (0,0) and the
all-zero jitter stream, the produced ray origin is `(-1, -1, 0)`, which does
not lie in the rotated view-plane rectangle: no rotated in-plane offset can
produce it, because the rotation maps the plane `z = 0` to a plane meeting
`z = 0` only at `y = 0`. -/
theorem c8_counterexample :
    ¬ ∃ a b : ℝ, (c8cam.outgoing_ray (1, 1) (0, 0) zeroRng).1.origin
        = c8cam.origin + c8cam.rotation.rotate ⟨a, b, 0⟩ := by
  rintro ⟨a, b, hab⟩
  have hy := congrArg Vec3.y hab
  have hz := congrArg Vec3.z hab
  simp only [c8cam, OrthCamera.outgoing_ray, genRange, Rng.advance, zeroRng,
    Quat.rotate, Quat.uvec, Vec3.dot, Vec3.cross, Vec3.smul, vec3_add_def] at hy hz
  norm_num at hy hz
  linarith

/-! ## Absence of configuration validation -/

lemma toByte_zero : toByte 0 = 0 := by
  unfold toByte
  rw [max_self, min_eq_left (by norm_num : (0 : ℝ) ≤ 1), zero_mul]
  exact Nat.floor_zero

lemma renderPixel_zero_samples (s : Solver) (x y : ℕ) (g : Rng)
    (h : s.samples = 0) : renderPixel s x y g = (⟨0, 0, 0⟩, g) := by
  unfold renderPixel
  rw [h]
  simp only [sampleLoop]
  rw [show ((0 : Vec3).x * (1 / ((0 : ℕ) : ℝ))) = 0 by norm_num,
    show ((0 : Vec3).y * (1 / ((0 : ℕ) : ℝ))) = 0 by norm_num,
    show ((0 : Vec3).z * (1 / ((0 : ℕ) : ℝ))) = 0 by norm_num, toByte_zero]

lemma renderPixels_zero_samples (s : Solver) (h : s.samples = 0) (x : ℕ) :
    ∀ (n y0 : ℕ) (g : Rng),
      renderPixels s x y0 n g = (List.replicate n ⟨0, 0, 0⟩, g) := by
  intro n
  induction n with
  | zero => intro y0 g; rfl
  | succ n ih =>
    intro y0 g
    simp only [renderPixels]
    rw [renderPixel_zero_samples s x y0 g h]
    dsimp only
    rw [ih]
    rfl

lemma renderCols_zero_samples (s : Solver) (h : s.samples = 0) :
    ∀ (n x0 : ℕ) (g : Rng),
      renderCols s x0 n g
        = (List.replicate n (List.replicate s.resolution.2 ⟨0, 0, 0⟩), g) := by
  intro n
  induction n with
  | zero => intro x0 g; rfl
  | succ n ih =>
    intro x0 g
    simp only [renderCols]
    rw [renderPixels_zero_samples s h x0 s.resolution.2 0 g]
    dsimp only
    rw [ih]
    rfl

/-- C7 (amended): the solver performs no validation at all — `Solver::new`
and the builders accept zero samples and zero resolution, and `solve`
proceeds to completion: with zero samples every pixel of the full-size image
is written as `(0, 0, 0)` (the zero radiance sum averaged by `1/0`,
which the real-number model evaluates to `0`). -/
theorem c7_amended_no_validation (s : Solver) (g : Rng) (h : s.samples = 0) :
    s.solve g
      = List.replicate s.resolution.1
          (List.replicate s.resolution.2 ⟨0, 0, 0⟩) := by
  unfold Solver.solve
  rw [renderCols_zero_samples s h s.resolution.1 0 g]

/-- C7 counterexample: a zero-resolution configuration and a zero-sample
configuration are both accepted with no failure path — construction succeeds
and `solve` returns a well-defined image, contradicting fail-fast
validation. -/
theorem c7_counterexample :
    ((Solver.new (fun _ _ g => (⟨⟨0, 0, 0⟩, ⟨0, 0, 1⟩⟩, g)) (0, 7)).solve
        zeroRng = []) ∧
    (c3solver.with_samples 0).samples = 0 ∧
    (c3solver.with_samples 0).solve zeroRng = [[⟨0, 0, 0⟩]] := by
  refine ⟨rfl, rfl, ?_⟩
  unfold Solver.solve
  rw [renderCols_zero_samples (c3solver.with_samples 0) rfl]
  rfl

/-! ## End-to-end pixel values at bounce budget zero -/

lemma traceAll_rng (objs : List Object) (ray : Ray) (g : Rng) :
    (traceAll objs ray g).2 = g :=
  traceFold_rng ray objs g none

/-- C1 (amended): with `samples = 1` and `max_bounces = 0`, every pixel whose
camera ray hits any object is written as `(0, 0, 0)` — the sampler returns
zero radiance at depth exhaustion, before adding any emission term — while
every pixel whose ray misses is the tone-mapped sky at the ray direction,
unaffected by the bounce budget. -/
theorem c1_amended_pixel (s : Solver) (x y : ℕ) (g g1 : Rng) (r1 : Ray)
    (hs : s.samples = 1) (hb : s.max_bounces = 0)
    (hr : s.camera s.resolution ((x : ℤ), (y : ℤ)) g = (r1, g1)) :
    (∀ c : Collision, (traceAll s.objects r1 g1).1 = some c →
        (renderPixel s x y g).1 = ⟨0, 0, 0⟩) ∧
    ((traceAll s.objects r1 g1).1 = none →
        (renderPixel s x y g).1
          = ⟨toByte ((s.sky r1.dir).x), toByte ((s.sky r1.dir).y),
              toByte ((s.sky r1.dir).z)⟩) := by
  constructor
  · intro c hc
    unfold renderPixel
    rw [hs]
    simp only [sampleLoop]
    rw [hr]
    dsimp only
    rw [Solver.sample]
    dsimp only
    rw [hc]
    dsimp only
    rw [dif_pos (by omega : s.max_bounces ≤ 0)]
    norm_num [toByte_zero]
  · intro hn
    unfold renderPixel
    rw [hs]
    simp only [sampleLoop]
    rw [hr]
    dsimp only
    rw [Solver.sample]
    dsimp only
    rw [hn]
    norm_num

/-- The white emissive material of the C1 end-to-end scene:
colour `(1,1,1)`, luminance `5`. -/
noncomputable def c1mat : Material := ⟨⟨1, 1, 1⟩, 0, 0, 5⟩

/-- The single emissive unit sphere of the C1 scene. -/
noncomputable def c1sphere : Sphere := ⟨⟨0, 0, 3⟩, 1, c1mat⟩

/-- An identity-rotation orthographic camera with a 2×2 view plane. -/
noncomputable def c1cam : OrthCamera := ⟨⟨0, 0, 0⟩, ⟨1, 0, 0, 0⟩, (2, 2)⟩

/-- The C1 scene solver: 1×1 image, 1 sample, 0 bounces, one emissive
sphere. -/
noncomputable def c1solver : Solver :=
  ⟨fun res p g => c1cam.outgoing_ray res p g, (1, 1), 0, 1,
    [Object.sphere c1sphere], defaultSky⟩

/-- The constant-one-half unit-draw stream: jitter lands at pixel centre. -/
noncomputable def halfRng : Rng := ⟨fun _ => 1 / 2, 0⟩

/-- The state of `halfRng` after the two camera jitter draws. -/
noncomputable def midRng : Rng := ⟨fun _ => 1 / 2, 2⟩

/-- The centred camera ray of the C1 scene, which hits the sphere. -/
noncomputable def c1ray : Ray := ⟨⟨0, 0, 0⟩, ⟨0, 0, 1⟩⟩

lemma c1hcam :
    c1solver.camera c1solver.resolution (((0 : ℕ) : ℤ), ((0 : ℕ) : ℤ)) halfRng
      = (c1ray, midRng) := by
  simp only [c1solver, c1cam, OrthCamera.outgoing_ray, genRange, Rng.advance,
    halfRng, midRng, c1ray, Quat.rotate, Quat.uvec, Vec3.dot, Vec3.cross,
    Vec3.smul, vec3_add_def, Prod.mk.injEq, Ray.mk.injEq, Vec3.mk.injEq,
    Rng.mk.injEq]
  norm_num

lemma c1sphere_trace (g : Rng) :
    (c1sphere.trace c1ray g).1
      = some ⟨c1ray, 2, (c1ray.at 2 - Vec3.mk 0 0 3).normalize, c1mat⟩ := by
  have hdisc : c1sphere.disc c1ray = 4 := by
    norm_num [Sphere.disc, Sphere.qa, Sphere.qb, Sphere.qc, Sphere.off,
      Vec3.lengthSquared, c1sphere, c1ray]
  have hsq : Real.sqrt (c1sphere.disc c1ray) = 2 := by
    rw [hdisc, show (4 : ℝ) = 2 ^ 2 by norm_num,
      Real.sqrt_sq (by norm_num : (0 : ℝ) ≤ 2)]
  have ht0 : c1sphere.t0 c1ray = 4 := by
    unfold Sphere.t0
    rw [hsq]
    norm_num [Sphere.qa, Sphere.qb, Sphere.off, Vec3.lengthSquared,
      c1sphere, c1ray]
  have ht1 : c1sphere.t1 c1ray = 2 := by
    unfold Sphere.t1
    rw [hsq]
    norm_num [Sphere.qa, Sphere.qb, Sphere.off, Vec3.lengthSquared,
      c1sphere, c1ray]
  unfold Sphere.trace
  dsimp only
  rw [if_neg (by rw [hdisc]; norm_num), if_pos (by rw [ht1]; norm_num),
    if_pos (by rw [ht0]; norm_num)]
  simp only [Option.map_some']
  rw [ht0, ht1, show min (4 : ℝ) 2 = 2 by norm_num]
  rfl

lemma c1traceAll (g : Rng) :
    (traceAll c1solver.objects c1ray g).1
      = some ⟨c1ray, 2, (c1ray.at 2 - Vec3.mk 0 0 3).normalize, c1mat⟩ := by
  simp only [c1solver]
  simp only [traceAll, traceFold, Object.trace]
  rw [c1sphere_trace g]

/-- C1 counterexample: in the single-emissive-sphere scene with
`max_bounces = 0` and `samples = 1`, the centred camera ray does hit the
sphere, yet the rendered pixel is `(0, 0, 0)` rather than the claimed
`(255, 255, 255)`. -/
theorem c1_counterexample :
    ((traceAll c1solver.objects c1ray midRng).1).isSome = true ∧
      (renderPixel c1solver 0 0 halfRng).1 = ⟨0, 0, 0⟩ ∧
      (renderPixel c1solver 0 0 halfRng).1 ≠ ⟨255, 255, 255⟩ := by
  have hpix : (renderPixel c1solver 0 0 halfRng).1 = ⟨0, 0, 0⟩ := by
    unfold renderPixel
    rw [show c1solver.samples = 1 from rfl]
    simp only [sampleLoop]
    rw [c1hcam]
    dsimp only
    rw [Solver.sample]
    dsimp only
    rw [c1traceAll midRng]
    dsimp only
    rw [dif_pos (show c1solver.max_bounces ≤ 0 from le_refl 0)]
    norm_num [toByte_zero]
  refine ⟨?_, hpix, ?_⟩
  · rw [c1traceAll midRng]
    rfl
  · rw [hpix]
    simp

theorem c1_witness :
    (c1solver.samples = 1 ∧ c1solver.max_bounces = 0 ∧
      c1solver.camera c1solver.resolution (((0 : ℕ) : ℤ), ((0 : ℕ) : ℤ))
        halfRng = (c1ray, midRng)) ∧
    ((∀ c : Collision, (traceAll c1solver.objects c1ray midRng).1 = some c →
        (renderPixel c1solver 0 0 halfRng).1 = ⟨0, 0, 0⟩) ∧
      ((traceAll c1solver.objects c1ray midRng).1 = none →
        (renderPixel c1solver 0 0 halfRng).1
          = ⟨toByte ((c1solver.sky c1ray.dir).x),
              toByte ((c1solver.sky c1ray.dir).y),
              toByte ((c1solver.sky c1ray.dir).z)⟩)) :=
  ⟨⟨rfl, rfl, c1hcam⟩,
    c1_amended_pixel c1solver 0 0 halfRng midRng c1ray rfl rfl c1hcam⟩

theorem c7_witness :
    (c3solver.with_samples 0).samples = 0 ∧
      (c3solver.with_samples 0).solve zeroRng
        = List.replicate (c3solver.with_samples 0).resolution.1
            (List.replicate (c3solver.with_samples 0).resolution.2
              ⟨0, 0, 0⟩) :=
  ⟨rfl, c7_amended_no_validation (c3solver.with_samples 0) zeroRng rfl⟩

end Raytrace
